import Mathlib

/-!
Verification of the HTTP exchange primitive of `src/cclient/http/http.c`
(iota.c cclient).

The file shallowly embeds the C source: the parser callbacks
(`request_parse_header_complete`, `request_parse_data`,
`request_parse_message_complete`), the receive loop (`http_response_read`),
the send path (`http_request_header`, `http_request_data`,
`cclient_socket_send`) and the retry wrapper (`iota_service_query`).

The vendored `http_parser` library, `char_buffer_t` utilities and the
mbedtls socket layer are not part of the source tree under scrutiny; they
are modelled from the specification (a byte-at-a-time incremental HTTP
response parser driving the embedded callbacks, and transport behaviour
given by explicit result scripts).  Machine integers never overflow in the
flows considered, so sizes are modelled as `Nat` and C `int` results as
`Int`.
-/

namespace IotaHttp

/-- Error codes of `retcode_t` used by `http.c` (values from `common/errors.h`;
only the identity of each code matters here, `RC_OK` is numerically 0). -/
inductive retcode_t where
  | RC_OK
  | RC_ERROR
  | RC_NULL_PARAM
  | RC_UTILS_SOCKET_RECV
  | RC_UTILS_SOCKET_SEND
  | RC_UTILS_SOCKET_CONNECT
  | RC_CCLIENT_HTTP
  | RC_CCLIENT_HTTP_REQ
  deriving DecidableEq, Repr

open retcode_t

/-- The `IOTA_REQUEST_STATUS` enum of `http.c`. -/
inductive IOTA_REQUEST_STATUS where
  | OK
  | DONE
  | ERROR
  deriving DecidableEq, Repr

/-- Modelled from the spec: the `char_buffer_t` response store — a capacity
fixed when the declared body length becomes known, and the byte contents of
the allocated region (`data.length` tracks the allocated extent; an
out-of-bounds `memcpy` past the end is modelled by the list growing past
`cap`). -/
structure CharBuffer where
  cap : Nat
  data : List Nat
  deriving DecidableEq, Repr

/-- Modelled from the spec: `char_buffer_allocate buf n` (from
`utils/char_buffer.c`, not in the source tree) gives the buffer capacity
`n`; the fresh region's contents are modelled as zeros.  Allocation failure
(out of memory) is not modelled. -/
def char_buffer_allocate (_buf : CharBuffer) (n : Nat) : CharBuffer :=
  ⟨n, List.replicate n 0⟩

/-- The `struct _response_ctx` of `http.c`: the response buffer, the write
offset, and the parse status. -/
structure ResponseCtx where
  response : CharBuffer
  offset : Nat
  status : IOTA_REQUEST_STATUS
  deriving DecidableEq, Repr

/-- Effect of `memcpy(dst + off, src, src.length)` on the byte list `dst`:
overwrite starting at `off`, growing the list if the write runs past the
end (which models a C out-of-bounds write). -/
def writeAt (dst : List Nat) (off : Nat) (src : List Nat) : List Nat :=
  dst.take off ++ List.replicate (off - dst.length) 0 ++ src
    ++ dst.drop (off + src.length)

/-- `request_parse_header_complete` from `http.c` (lines 59–71): on the
headers-complete event, read the parser's content length; `UINT64_MAX`
(no finite declared length, modelled as `none`) is a fatal callback error;
otherwise allocate the response buffer to exactly that length and reset the
offset.  Returns the C callback's `int` result and the updated context. -/
def request_parse_header_complete (data_len : Option Nat) (ctx : ResponseCtx) :
    Int × ResponseCtx :=
  match data_len with
  | none => (-1, { ctx with status := .ERROR })
  | some n => (0, { ctx with response := char_buffer_allocate ctx.response n,
                             offset := 0 })

/-- `request_parse_data` from `http.c` (lines 73–77): unconditionally
`memcpy` the delivered body bytes into the response buffer at the current
offset and advance the offset; there is no capacity check and the callback
always returns `RC_OK` (0). -/
def request_parse_data (ctx : ResponseCtx) (bytes : List Nat) :
    Int × ResponseCtx :=
  (0, { ctx with
          response := { ctx.response with
                          data := writeAt ctx.response.data ctx.offset bytes },
          offset := ctx.offset + bytes.length })

/-- `request_parse_message_complete` from `http.c` (lines 79–82): mark the
parse as done. -/
def request_parse_message_complete (ctx : ResponseCtx) : Int × ResponseCtx :=
  (0, { ctx with status := .DONE })

/-! ### The incremental response parser

`http_parser` is vendored third-party code, not part of the sources under
scrutiny; the definitions below model it from the spec: a byte-at-a-time
state machine that accumulates the header block until the blank-line
terminator, then fires the headers-complete event (with the content length
extracted from the header bytes, `none` when no finite `Content-Length` is
declared), then delivers each body byte through the body event, firing the
message-complete event once the declared length has been delivered.  No
transition leaves a completed or failed parse. -/

/-- Bytes of a string (ASCII payloads throughout). -/
def strBytes (s : String) : List Nat :=
  s.toList.map Char.toNat

/-- The CRLF CRLF header-block terminator. -/
def headerTerm : List Nat := [13, 10, 13, 10]

/-- Modelled from the spec: does the byte list end with the blank-line
header terminator? -/
def endsWithTerm (l : List Nat) : Bool :=
  decide (4 ≤ l.length ∧ l.drop (l.length - 4) = headerTerm)

/-- Search for the first occurrence of `marker` and return the bytes after
it, `none` when the marker is absent. -/
def dropAfter (marker : List Nat) : List Nat → Option (List Nat)
  | [] => none
  | b :: rest =>
      if (b :: rest).take marker.length = marker then
        some ((b :: rest).drop marker.length)
      else dropAfter marker rest

/-- Value of a leading run of ASCII digits, `none` when there is none. -/
def parseDigits (l : List Nat) : Option Nat :=
  let ds := l.takeWhile (fun b => decide (48 ≤ b) && decide (b ≤ 57))
  if ds.isEmpty then none
  else some (ds.foldl (fun acc d => acc * 10 + (d - 48)) 0)

/-- Modelled from the spec: the finite declared content length of a header
block — the digits following the first `Content-Length: ` marker — or
`none` when the response declares no finite length. -/
def contentLength (hdr : List Nat) : Option Nat :=
  (dropAfter (strBytes "Content-Length: ") hdr).bind parseDigits

/-- Modelled from the spec: the parser phase — accumulating header bytes,
or delivering body bytes with `remaining` still to come. -/
inductive PPhase where
  | headers (acc : List Nat)
  | body (remaining : Nat)
  deriving DecidableEq, Repr

/-- The parser together with its callback context (`parser.data` in C). -/
structure ParserState where
  phase : PPhase
  ctx : ResponseCtx
  deriving DecidableEq, Repr

/-- A parse that has reached a terminal status consumes no further input. -/
def halted (st : ParserState) : Bool :=
  decide (st.ctx.status ≠ .OK)

/-- Modelled from the spec: consume one byte, firing the embedded `http.c`
callbacks at the corresponding parse events. -/
def pstep (st : ParserState) (b : Nat) : ParserState :=
  match st.phase with
  | .headers acc =>
      let acc' := acc ++ [b]
      if endsWithTerm acc' then
        let r := request_parse_header_complete (contentLength acc') st.ctx
        if r.1 < 0 then { phase := .headers acc', ctx := r.2 }
        else
          match contentLength acc' with
          | none => { phase := .headers acc', ctx := r.2 }
          | some n =>
              if n = 0 then
                { phase := .body 0,
                  ctx := (request_parse_message_complete r.2).2 }
              else { phase := .body n, ctx := r.2 }
      else { phase := .headers acc', ctx := st.ctx }
  | .body r =>
      let ctx' := (request_parse_data st.ctx [b]).2
      if r ≤ 1 then
        { phase := .body 0, ctx := (request_parse_message_complete ctx').2 }
      else { phase := .body (r - 1), ctx := ctx' }

/-- One byte of input: a halted parse ignores it. -/
def stepFull (st : ParserState) (b : Nat) : ParserState :=
  if halted st then st else pstep st b

/-- The parse state after a byte sequence. -/
def prun (st : ParserState) (l : List Nat) : ParserState :=
  l.foldl stepFull st

/-- Modelled from the spec: `http_parser_execute` on one received chunk —
consume bytes until the parse halts or the chunk is exhausted, returning
the number of bytes consumed and the new state. -/
def parserExecute : ParserState → List Nat → Nat × ParserState
  | st, [] => (0, st)
  | st, b :: rest =>
      if halted st then (0, st)
      else
        let r := parserExecute (pstep st b) rest
        (r.1 + 1, r.2)

/-- The receive loop of `http_response_read` (`http.c` lines 147–160): the
transport's successive `mbedtls_socket_recv` results are given as a script,
one byte list per call, an empty list standing for a `<= 0` result (EOF or
receive error, which the C loop treats alike).  An exhausted script is read
as EOF.  Each delivered chunk is fed to the parser; a short consume or a
callback error yields `RC_UTILS_SOCKET_RECV`, a completed message yields
`RC_OK`, end of stream before completion yields `RC_CCLIENT_HTTP`.  The
second component is the caller's buffer as left behind. -/
def read_loop (st : ParserState) : List (List Nat) → retcode_t × CharBuffer
  | [] => (RC_CCLIENT_HTTP, st.ctx.response)
  | chunk :: rest =>
      if chunk.isEmpty then (RC_CCLIENT_HTTP, st.ctx.response)
      else
        let r := parserExecute st chunk
        if r.1 < chunk.length ∨ r.2.ctx.status = .ERROR then
          (RC_UTILS_SOCKET_RECV, r.2.ctx.response)
        else if r.2.ctx.status = .DONE then (RC_OK, r.2.ctx.response)
        else read_loop r.2 rest

/-- `http_response_read` from `http.c` (lines 127–161): fresh parser and
fresh response context per call, then the receive loop over the transport
script, threading the caller's buffer. -/
def http_response_read (script : List (List Nat)) (response : CharBuffer) :
    retcode_t × CharBuffer :=
  read_loop ⟨.headers [], ⟨response, 0, .OK⟩⟩ script




/-! ### The request-sending path -/

/-- The `http_info_t` configuration fields used by the request path. -/
structure http_info_t where
  path : String
  host : String
  api_version : Int
  content_type : String
  accept : String
  deriving DecidableEq, Repr

/-- The `sprintf` result of `header_template` (`http.c` lines 31–38)
instantiated with the settings and the request body length. -/
def header_string (s : http_info_t) (data_length : Nat) : String :=
  "POST " ++ s.path ++ " HTTP/1.1\r\n" ++
  "Host: " ++ s.host ++ "\r\n" ++
  "X-IOTA-API-Version: " ++ toString s.api_version ++ "\r\n" ++
  "Content-Type: " ++ s.content_type ++ "\r\n" ++
  "Accept: " ++ s.accept ++ "\r\n" ++
  "Content-Length: " ++ toString data_length ++ "\r\n" ++
  "\r\n"

/-- Size of the fixed stack buffer `char header[1024]` that
`http_request_header` formats into with `sprintf`. -/
def HEADER_BUF_SIZE : Nat := 1024

/-- The formatted header together with its terminating NUL fits the fixed
stack buffer; `sprintf` writes past the buffer exactly when this fails. -/
def header_fits (s : http_info_t) (data_length : Nat) : Prop :=
  (header_string s data_length).length + 1 ≤ HEADER_BUF_SIZE

instance (s : http_info_t) (n : Nat) : Decidable (header_fits s n) := by
  unfold header_fits
  infer_instance

/-- `http_request_header` from `http.c` (lines 92–97): format the header
(unbounded `sprintf` into the fixed buffer — no bound check, no error
path) and send it with a single `mbedtls_socket_send` call whose result
`hdr_send` the transport script supplies; the function returns that result
verbatim.  The string sent is paired up for wire-level reasoning. -/
def http_request_header (hdr_send : Int) (s : http_info_t)
    (data_length : Nat) : Int × String :=
  (hdr_send, header_string s data_length)

/-- `http_request_data` from `http.c` (lines 107–118): loop sending the
remaining body, advancing the cursor by exactly the byte count each
`mbedtls_socket_send` call reports; a negative result aborts at once with
`RC_UTILS_SOCKET_SEND`.  The transport's per-call results are the `sends`
script; `none` models a run needing more send calls than scripted.  The
second component is the sequence of body bytes actually handed to the
transport, in order. -/
def http_request_data (sends : List Int) (data : List Nat) :
    Option retcode_t × List Nat :=
  match data with
  | [] => (some RC_OK, [])
  | d :: ds =>
      match sends with
      | [] => (none, [])
      | n :: rest =>
          if n < 0 then (some RC_UTILS_SOCKET_SEND, [])
          else
            let k := n.toNat
            let r := http_request_data rest ((d :: ds).drop k)
            (r.1, (d :: ds).take k ++ r.2)

/-- The transport script guarantees of one attempt: the connect outcome
(`sockfd >= 0`), the single header-send result, the body-send results and
the receive results.  Modelled from the spec's Transport contract
(`send -> nonNegativeByteCount | negativeError`,
`receive -> positiveByteCount | zero EOF | negativeError`). -/
structure World where
  connect_ok : Bool
  hdr_send : Int
  body_sends : List Int
  recv_script : List (List Nat)
  deriving Repr

/-- `cclient_socket_send` from `http.c` (lines 170–195): connect, send the
header (proceeding unless the result is exactly `-1`), send the body, then
read the response; each failure selects the corresponding error code.
`none` propagates an under-specified transport script. -/
def cclient_socket_send (w : World) (s : http_info_t) (obj : List Nat)
    (response : CharBuffer) : Option retcode_t × CharBuffer :=
  if w.connect_ok then
    if (http_request_header w.hdr_send s obj.length).1 ≠ -1 then
      match http_request_data w.body_sends obj with
      | (some r, _) =>
          if r = RC_OK then
            let rr := http_response_read w.recv_script response
            (some rr.1, rr.2)
          else (some r, response)
      | (none, _) => (none, response)
    else (some RC_CCLIENT_HTTP_REQ, response)
  else (some RC_UTILS_SOCKET_CONNECT, response)

/-- The retry loop of `iota_service_query` (`http.c` lines 204–211): while
the last result is `RC_UTILS_SOCKET_RECV` and `retry <= ceiling`
(`CCLIENT_SOCKET_RETRY`), run another full attempt on the next scripted
transport world.  Returns the final code, the caller's buffer, and the
total number of attempts performed. -/
def query_loop (ceiling : Nat) (s : http_info_t) (obj : List Nat)
    (worlds : List World) (buf : CharBuffer) (ret : retcode_t)
    (retry attempts : Nat) : Option (retcode_t × CharBuffer × Nat) :=
  if ret ≠ RC_UTILS_SOCKET_RECV then some (ret, buf, attempts)
  else if ceiling < retry then some (ret, buf, attempts)
  else
    match worlds with
    | [] => none
    | w :: rest =>
        match cclient_socket_send w s obj buf with
        | (some r, buf') =>
            query_loop ceiling s obj rest buf' r (retry + 1) (attempts + 1)
        | (none, _) => none

/-- `iota_service_query` from `http.c` (lines 197–213): one attempt, then
the bounded retry loop on `RC_UTILS_SOCKET_RECV` results.  The NULL
argument guard of the C function concerns pointer validity and is outside
this embedding; each retry opens a fresh transport, hence consumes the next
`World` of the script.  The attempt count in the result is the number of
`cclient_socket_send` calls performed. -/
def iota_service_query (ceiling : Nat) (s : http_info_t) (obj : List Nat)
    (worlds : List World) (response : CharBuffer) :
    Option (retcode_t × CharBuffer × Nat) :=
  match worlds with
  | [] => none
  | w :: rest =>
      match cclient_socket_send w s obj response with
      | (some r, buf') => query_loop ceiling s obj rest buf' r 0 1
      | (none, _) => none

/-- A transport world whose receive phase delivers a complete well-formed
5-byte response. -/
def wOK : World :=
  ⟨true, 1, [],
   [strBytes "HTTP/1.1 200 OK\r\nContent-Length: 5\r\n\r\nhello"]⟩

/-- A transport world whose receive phase delivers a header block with no
`Content-Length`, making the headers-complete callback fail. -/
def wNoLen : World :=
  ⟨true, 1, [], [strBytes "HTTP/1.1 200 OK\r\n\r\n"]⟩

/-- Concrete settings used by witnesses. -/
def s0 : http_info_t :=
  ⟨"/api", "node.example", 1, "application/json", "application/json"⟩

/-- A transport world whose header send reports the error `-2`: a negative
send result that is not the `-1` the code tests for. -/
def wBadHdr : World :=
  ⟨true, -2, [],
   [strBytes "HTTP/1.1 200 OK\r\nContent-Length: 5\r\n\r\nhello"]⟩

/-- A transport world whose body send fails at once. -/
def wSendFail : World := ⟨true, 1, [-1], []⟩

/-- A transport world that closes the stream right after delivering a
header and two of the five declared body bytes. -/
def wPartial : World :=
  ⟨true, 1, [], [strBytes "HTTP/1.1 200 OK\r\nContent-Length: 5\r\n\r\nhe", []]⟩

/-- Settings with a 1100-character path: the formatted header exceeds the
1024-byte header buffer. -/
def s_long : http_info_t :=
  ⟨String.mk (List.replicate 1100 'a'), "node.example", 1,
   "application/json", "application/json"⟩

/-- Settings with a 1200-character host: the formatted header exceeds the
1024-byte header buffer. -/
def s_long2 : http_info_t :=
  ⟨"/api", String.mk (List.replicate 1200 'h'), 1,
   "application/json", "application/json"⟩

/-- A well-formed header block: it ends with the blank-line terminator and
the terminator occurs nowhere earlier (no proper prefix ends with it). -/
def properHeader (hdr : List Nat) : Prop :=
  endsWithTerm hdr = true ∧
  ∀ j, j < hdr.length → endsWithTerm (hdr.take j) = false

instance (hdr : List Nat) : Decidable (properHeader hdr) := by
  unfold properHeader
  infer_instance

/-- The transport send contract along one run of `http_request_data`: each
scripted non-negative result is at most the number of bytes the call asked
for (the spec's `send` returns the count actually transmitted). -/
def sends_ok : List Int → Nat → Bool
  | _, 0 => true
  | [], _ + 1 => true
  | n :: rest, r + 1 =>
      if n < 0 then true
      else decide (n.toNat ≤ r + 1) && sends_ok rest (r + 1 - n.toNat)

/-- The wire image of one request: the header string's bytes followed by
the body bytes handed to the transport by `http_request_data`. -/
def request_wire (hdr_send : Int) (sends : List Int) (s : http_info_t)
    (data : List Nat) : List Nat :=
  strBytes (http_request_header hdr_send s data.length).2 ++
    (http_request_data sends data).2

/-- The parser/context state `http_response_read` starts each attempt
from. -/
def initSt (buf : CharBuffer) : ParserState :=
  ⟨.headers [], ⟨buf, 0, .OK⟩⟩

/-- States whose buffer is within bounds, with the body phase guaranteeing
room for every byte still expected. -/
def stInv (st : ParserState) : Prop :=
  st.ctx.response.data.length ≤ st.ctx.response.cap ∧
  ∀ r, st.phase = .body r →
    st.ctx.response.data.length = st.ctx.response.cap ∧
    st.ctx.offset + r ≤ st.ctx.response.cap ∧
    (st.ctx.status = .OK → 1 ≤ r)

/-- The well-formed response header block used by concrete witnesses. -/
def hdr5 : List Nat := strBytes "HTTP/1.1 200 OK\r\nContent-Length: 5\r\n\r\n"

/-- The response body used by concrete witnesses. -/
def body5 : List Nat := strBytes "hello"

/-- The buffer a successful 5-byte exchange leaves behind. -/
def bufOK : CharBuffer := ⟨5, body5⟩





/-! ### Parser-run lemmas -/

lemma prun_nil (st : ParserState) : prun st [] = st := rfl

lemma prun_append (st : ParserState) (l₁ l₂ : List Nat) :
    prun st (l₁ ++ l₂) = prun (prun st l₁) l₂ :=
  List.foldl_append ..

lemma prun_cons (st : ParserState) (b : Nat) (l : List Nat) :
    prun st (b :: l) = prun (stepFull st b) l := rfl

lemma prun_snoc (st : ParserState) (l : List Nat) (b : Nat) :
    prun st (l ++ [b]) = stepFull (prun st l) b := by
  rw [prun_append]; rfl

lemma halted_of_status {st : ParserState} (h : st.ctx.status = .OK) :
    halted st = false := by
  simp [halted, h]

lemma stepFull_of_status {st : ParserState} (h : st.ctx.status = .OK)
    (b : Nat) : stepFull st b = pstep st b := by
  simp [stepFull, halted_of_status h]

lemma pstep_headers_no_term {acc : List Nat} {ctx : ResponseCtx} {b : Nat}
    (h : endsWithTerm (acc ++ [b]) = false) :
    pstep ⟨.headers acc, ctx⟩ b = ⟨.headers (acc ++ [b]), ctx⟩ := by
  simp [pstep, h]

/-- Header accumulation: while no prefix triggers the terminator the parse
only extends the accumulated header bytes. -/
lemma prun_headers_acc :
    ∀ (l acc : List Nat) (ctx : ResponseCtx), ctx.status = .OK →
      (∀ j, 0 < j → j ≤ l.length → endsWithTerm (acc ++ l.take j) = false) →
      prun ⟨.headers acc, ctx⟩ l = ⟨.headers (acc ++ l), ctx⟩
  | [], acc, ctx, _, _ => by simp [prun_nil]
  | b :: rest, acc, ctx, hok, hterm => by
      rw [prun_cons, stepFull_of_status hok,
        pstep_headers_no_term (by
          have := hterm 1 (by omega) (by simp)
          simpa using this)]
      rw [prun_headers_acc rest (acc ++ [b]) ctx hok (by
        intro j hj hjl
        have := hterm (j + 1) (by omega) (by simp; omega)
        simpa [List.append_assoc] using this)]
      simp

/-- Firing the headers-complete event with no finite declared length. -/
lemma pstep_fire_none {acc : List Nat} {ctx : ResponseCtx} {b : Nat}
    (ht : endsWithTerm (acc ++ [b]) = true)
    (hcl : contentLength (acc ++ [b]) = none) :
    pstep ⟨.headers acc, ctx⟩ b =
      ⟨.headers (acc ++ [b]), { ctx with status := .ERROR }⟩ := by
  simp [pstep, ht, hcl, request_parse_header_complete]

/-- Firing the headers-complete event with declared length zero: the
message completes at once. -/
lemma pstep_fire_zero {acc : List Nat} {ctx : ResponseCtx} {b : Nat}
    (ht : endsWithTerm (acc ++ [b]) = true)
    (hcl : contentLength (acc ++ [b]) = some 0) :
    pstep ⟨.headers acc, ctx⟩ b =
      ⟨.body 0, ⟨⟨0, []⟩, 0, .DONE⟩⟩ := by
  simp [pstep, ht, hcl, request_parse_header_complete,
    request_parse_message_complete, char_buffer_allocate]

/-- Firing the headers-complete event with positive declared length `n`:
allocate the buffer and enter the body phase. -/
lemma pstep_fire_pos {acc : List Nat} {ctx : ResponseCtx} {b : Nat} {n : Nat}
    (hok : ctx.status = .OK)
    (ht : endsWithTerm (acc ++ [b]) = true)
    (hcl : contentLength (acc ++ [b]) = some n) (hn : 0 < n) :
    pstep ⟨.headers acc, ctx⟩ b =
      ⟨.body n, ⟨⟨n, List.replicate n 0⟩, 0, .OK⟩⟩ := by
  simp [pstep, ht, hcl, request_parse_header_complete, char_buffer_allocate,
    Nat.pos_iff_ne_zero.mp hn]
  exact hok

lemma properHeader_ne_nil {hdr : List Nat} (h : properHeader hdr) :
    hdr ≠ [] := by
  intro hnil
  have := h.1
  rw [hnil] at this
  simp [endsWithTerm, headerTerm] at this

/-- Running the parser over a whole well-formed header block from the
initial state: the parse accumulates the block, then fires the
headers-complete event on its last byte. -/
lemma prun_header_upto {hdr : List Nat} (h : properHeader hdr)
    (buf : CharBuffer) {L : List Nat} {b : Nat} (hL : hdr = L ++ [b]) :
    prun (initSt buf) hdr = pstep ⟨.headers L, ⟨buf, 0, .OK⟩⟩ b := by
  have hlen : L.length < hdr.length := by simp [hL]
  rw [hL, prun_snoc]
  have hacc : prun (initSt buf) L = ⟨.headers L, ⟨buf, 0, .OK⟩⟩ := by
    have := prun_headers_acc L [] ⟨buf, 0, .OK⟩ rfl (by
      intro j _ hjl
      have hj : j < hdr.length := by omega
      have := h.2 j hj
      rw [hL, List.take_append_of_le_length hjl] at this
      simpa using this)
    simpa [initSt] using this
  rw [hacc, stepFull_of_status rfl]

/-- Header block declaring no finite length: the headers-complete callback
fails and the parse halts in `ERROR`, the caller's buffer untouched. -/
lemma prun_header_none {hdr : List Nat} (h : properHeader hdr)
    (hcl : contentLength hdr = none) (buf : CharBuffer) :
    prun (initSt buf) hdr = ⟨.headers hdr, ⟨buf, 0, .ERROR⟩⟩ := by
  rcases List.eq_nil_or_concat hdr with hnil | ⟨L, b, hL⟩
  · exact absurd hnil (properHeader_ne_nil h)
  · rw [List.concat_eq_append] at hL
    rw [prun_header_upto h buf hL,
      pstep_fire_none (by rw [← hL]; exact h.1) (by rw [← hL]; exact hcl)]
    rw [← hL]

/-- Header block declaring length `n`: the buffer is allocated to exactly
`n` and the parse enters the body phase (completing at once when `n = 0`). -/
lemma prun_header_some {hdr : List Nat} {n : Nat} (h : properHeader hdr)
    (hcl : contentLength hdr = some n) (buf : CharBuffer) :
    prun (initSt buf) hdr =
      if n = 0 then ⟨.body 0, ⟨⟨0, []⟩, 0, .DONE⟩⟩
      else ⟨.body n, ⟨⟨n, List.replicate n 0⟩, 0, .OK⟩⟩ := by
  rcases List.eq_nil_or_concat hdr with hnil | ⟨L, b, hL⟩
  · exact absurd hnil (properHeader_ne_nil h)
  · rw [List.concat_eq_append] at hL
    rcases Nat.eq_zero_or_pos n with hn | hn
    · subst hn
      rw [prun_header_upto h buf hL,
        pstep_fire_zero (by rw [← hL]; exact h.1) (by rw [← hL]; exact hcl)]
      simp
    · rw [prun_header_upto h buf hL,
        pstep_fire_pos rfl (by rw [← hL]; exact h.1) (by rw [← hL]; exact hcl)
          hn]
      simp [Nat.pos_iff_ne_zero.mp hn]

/-- One body byte: the embedded `request_parse_data` appends it at the
write offset; the message completes when it was the last expected byte. -/
lemma prun_body_run :
    ∀ (p : List Nat) (j r : Nat) (pre : List Nat), pre.length = j →
      p.length ≤ r → 1 ≤ r →
      prun ⟨.body r, ⟨⟨j + r, pre ++ List.replicate r 0⟩, j, .OK⟩⟩ p =
        if p.length = r then
          ⟨.body 0, ⟨⟨j + r, pre ++ p⟩, j + r, .DONE⟩⟩
        else
          ⟨.body (r - p.length),
            ⟨⟨j + r, pre ++ p ++ List.replicate (r - p.length) 0⟩,
              j + p.length, .OK⟩⟩
  | [], j, r, pre, hpre, hlen, hr => by
      rw [prun_nil, if_neg (by simp only [List.length_nil]; omega)]
      simp
  | b :: p', j, r, pre, hpre, hlen, hr => by
      rw [prun_cons, stepFull_of_status rfl]
      have h1 : (pre ++ List.replicate r 0).take j = pre := by
        rw [← hpre]; exact List.take_left ..
      have h2 : (pre ++ List.replicate r 0).drop (j + 1) =
          List.replicate (r - 1) 0 := by
        rw [← hpre, List.drop_append]
        rcases Nat.exists_eq_add_of_le hr with ⟨r', hr'⟩
        subst hr'
        simp [List.replicate_add]
      have h3 : j - (pre.length + r) = 0 := by omega
      have hwrite :
          writeAt (pre ++ List.replicate r 0) j [b] =
            (pre ++ [b]) ++ List.replicate (r - 1) 0 := by
        simp [writeAt, h1, h2, h3]
      rcases Nat.lt_or_ge 1 r with hr2 | hr2
      · have hnot : ¬ r ≤ 1 := by omega
        have hstep :
            pstep ⟨.body r, ⟨⟨j + r, pre ++ List.replicate r 0⟩, j, .OK⟩⟩ b =
              ⟨.body (r - 1),
                ⟨⟨j + r, (pre ++ [b]) ++ List.replicate (r - 1) 0⟩,
                  j + 1, .OK⟩⟩ := by
          simp [pstep, request_parse_data, hwrite, hnot]
        rw [hstep]
        have hjr : j + r = (j + 1) + (r - 1) := by omega
        rw [show (⟨.body (r - 1),
              ⟨⟨j + r, (pre ++ [b]) ++ List.replicate (r - 1) 0⟩,
                j + 1, .OK⟩⟩ : ParserState) =
            ⟨.body (r - 1),
              ⟨⟨(j + 1) + (r - 1), (pre ++ [b]) ++ List.replicate (r - 1) 0⟩,
                j + 1, .OK⟩⟩ from by rw [← hjr]]
        rw [prun_body_run p' (j + 1) (r - 1) (pre ++ [b]) (by simp [hpre])
          (by simp only [List.length_cons] at hlen; omega) (by omega)]
        by_cases hp : p'.length = r - 1
        · have : (b :: p').length = r := by simp [hp]; omega
          simp only [hp, this, if_pos rfl, if_pos rfl]
          simp [← hjr]
        · have : ¬ (b :: p').length = r := by simp; omega
          simp only [if_neg hp, if_neg this]
          have e1 : r - 1 - p'.length = r - (b :: p').length := by
            simp; omega
          have e2 : j + 1 + p'.length = j + (b :: p').length := by
            simp; omega
          simp [← hjr, e1, e2, List.append_assoc]
      · have hr1 : r = 1 := by omega
        subst hr1
        have hp' : p' = [] := by
          simp only [List.length_cons] at hlen
          exact List.eq_nil_of_length_eq_zero (by omega)
        subst hp'
        have hstep :
            pstep ⟨.body 1, ⟨⟨j + 1, pre ++ List.replicate 1 0⟩, j, .OK⟩⟩ b =
              ⟨.body 0, ⟨⟨j + 1, pre ++ [b]⟩, j + 1, .DONE⟩⟩ := by
          simp [pstep, request_parse_data, request_parse_message_complete]
          have := hwrite
          simp at this
          simp [this]
        rw [hstep, prun_nil]
        simp

/-- Full run over a well-formed header block followed by `p` body bytes
(`p` possibly partial): the buffer holds exactly the body bytes received,
zero-padded up to the declared length while incomplete. -/
lemma prun_full {hdr p : List Nat} {n : Nat} (h : properHeader hdr)
    (hcl : contentLength hdr = some n) (hp : p.length ≤ n) (buf : CharBuffer) :
    prun (initSt buf) (hdr ++ p) =
      if p.length = n then ⟨.body 0, ⟨⟨n, p⟩, n, .DONE⟩⟩
      else
        ⟨.body (n - p.length),
          ⟨⟨n, p ++ List.replicate (n - p.length) 0⟩, p.length, .OK⟩⟩ := by
  rw [prun_append, prun_header_some h hcl]
  rcases Nat.eq_zero_or_pos n with hn | hn
  · subst hn
    have hp0 : p = [] := List.eq_nil_of_length_eq_zero (by omega)
    subst hp0
    simp [prun_nil]
  · rw [if_neg (by omega)]
    have := prun_body_run p 0 n [] rfl hp hn
    simp only [Nat.zero_add, List.nil_append] at this
    rw [this]

lemma halted_false_iff {st : ParserState} :
    halted st = false ↔ st.ctx.status = .OK := by
  simp [halted]

/-- Along a well-formed (possibly body-incomplete) response the parse
halts nowhere strictly inside, and not at the end either while body bytes
are still missing. -/
lemma noHalt_wf {hdr p : List Nat} {n : Nat} (h : properHeader hdr)
    (hcl : contentLength hdr = some n) (hp : p.length ≤ n) (buf : CharBuffer) :
    ∀ j, j ≤ (hdr ++ p).length → (j = (hdr ++ p).length → p.length < n) →
      halted (prun (initSt buf) ((hdr ++ p).take j)) = false := by
  intro j hj hend
  rcases Nat.lt_or_ge j hdr.length with hlt | hge
  · rw [List.take_append_of_le_length (Nat.le_of_lt hlt)]
    have hrun := prun_headers_acc (hdr.take j) [] ⟨buf, 0, .OK⟩ rfl (by
      intro i _ hil
      have hlen : (hdr.take j).length = j := by simp; omega
      rw [hlen] at hil
      have htt : (hdr.take j).take i = hdr.take i := by
        rw [List.take_take, Nat.min_eq_left (by omega)]
      simp only [List.nil_append, htt]
      exact h.2 i (by omega))
    rw [halted_false_iff]
    rw [show (initSt buf) = ⟨.headers [], ⟨buf, 0, .OK⟩⟩ from rfl, hrun]
  · obtain ⟨m, hm⟩ := Nat.exists_eq_add_of_le hge
    subst hm
    rw [List.take_append]
    have hmp : m ≤ p.length := by
      simp at hj
      omega
    have htm : (p.take m).length = m := by simp; omega
    have hmn : m < n := by
      rcases Nat.lt_or_ge m p.length with hc | hc
      · omega
      · have hmp' : m = p.length := by omega
        have := hend (by simp [hmp'])
        omega
    rw [prun_full h hcl (by omega) buf]
    rw [if_neg (by omega), halted_false_iff]

/-- When the parse never halts strictly inside a chunk,
`http_parser_execute` consumes it whole. -/
lemma parserExecute_full :
    ∀ (l : List Nat) (st : ParserState),
      (∀ j, j < l.length → halted (prun st (l.take j)) = false) →
      parserExecute st l = (l.length, prun st l)
  | [], _, _ => rfl
  | b :: rest, st, h => by
      have h0 : halted st = false := by
        have := h 0 (by simp)
        simpa [prun_nil] using this
      have hrec := parserExecute_full rest (pstep st b) (by
        intro j hj
        have := h (j + 1) (by simp; omega)
        simpa [List.take_succ_cons, prun_cons, stepFull, h0] using this)
      simp [parserExecute, h0, hrec, prun_cons, stepFull]

/-- When the parse halts exactly at the end of `l`, `http_parser_execute`
consumes `l` and not a byte of what follows. -/
lemma parserExecute_halt :
    ∀ (l extra : List Nat) (st : ParserState),
      (∀ j, j < l.length → halted (prun st (l.take j)) = false) →
      halted (prun st l) = true →
      parserExecute st (l ++ extra) = (l.length, prun st l)
  | [], extra, st, _, hh => by
      rw [prun_nil] at hh
      cases extra with
      | nil => rfl
      | cons e es => simp [parserExecute, hh, prun_nil]
  | b :: rest, extra, st, h, hh => by
      have h0 : halted st = false := by
        have := h 0 (by simp)
        simpa [prun_nil] using this
      have hrec := parserExecute_halt rest extra (pstep st b) (by
        intro j hj
        have := h (j + 1) (by simp; omega)
        simpa [List.take_succ_cons, prun_cons, stepFull, h0] using this)
        (by simpa [prun_cons, stepFull, h0] using hh)
      simp [parserExecute, h0, hrec, prun_cons, stepFull]

/-! ### Receive-loop lemmas -/

/-- Intermediate chunks that the parse consumes whole without reaching a
terminal status just move the loop's state forward. -/
lemma read_loop_walk :
    ∀ (cs rest : List (List Nat)) (st : ParserState),
      (∀ c ∈ cs, c ≠ []) →
      (∀ j, j ≤ cs.flatten.length →
        halted (prun st (cs.flatten.take j)) = false) →
      read_loop st (cs ++ rest) = read_loop (prun st cs.flatten) rest
  | [], rest, st, _, _ => by simp [prun_nil]
  | c :: cs', rest, st, hne, hnh => by
      have hc : c ≠ [] := hne c (by simp)
      have hflat : (c :: cs').flatten = c ++ cs'.flatten := rfl
      have hnhc : ∀ j, j < c.length → halted (prun st (c.take j)) = false := by
        intro j hj
        have := hnh j (by rw [hflat, List.length_append]; omega)
        rwa [hflat, List.take_append_of_le_length (by omega)] at this
      have hexec := parserExecute_full c st hnhc
      have hstat : (prun st c).ctx.status = .OK := by
        rw [← halted_false_iff]
        have := hnh c.length (by rw [hflat, List.length_append]; omega)
        rwa [hflat, List.take_append_of_le_length (Nat.le_refl _),
          List.take_length] at this
      have hrec := read_loop_walk cs' rest (prun st c)
        (fun d hd => hne d (by simp [hd]))
        (by
          intro j hj
          have := hnh (c.length + j) (by rw [hflat, List.length_append]; omega)
          rwa [hflat, List.take_append, prun_append] at this)
      simp only [List.cons_append]
      rw [read_loop, if_neg (by simp [hc]), hexec]
      simp only [hstat]
      simp only [show (IOTA_REQUEST_STATUS.OK = .ERROR) = False from by simp,
        show (IOTA_REQUEST_STATUS.OK = .DONE) = False from by simp]
      rw [if_neg (by simp), if_neg (by simp)]
      rw [hrec, hflat, prun_append]

/-- A nonempty chunk the parse consumes whole, completing the message:
the loop returns `RC_OK` with the reconstructed buffer. -/
lemma read_loop_done {st : ParserState} {c : List Nat}
    (rest : List (List Nat)) (hc : c ≠ [])
    (hnh : ∀ j, j < c.length → halted (prun st (c.take j)) = false)
    (hdone : (prun st c).ctx.status = .DONE) :
    read_loop st (c :: rest) = (RC_OK, (prun st c).ctx.response) := by
  rw [read_loop, if_neg (by simp [hc]), parserExecute_full c st hnh]
  simp [hdone]

/-- A nonempty chunk the parse consumes whole, ending in the error status:
the loop returns `RC_UTILS_SOCKET_RECV`. -/
lemma read_loop_callback_err {st : ParserState} {c : List Nat}
    (rest : List (List Nat)) (hc : c ≠ [])
    (hnh : ∀ j, j < c.length → halted (prun st (c.take j)) = false)
    (herr : (prun st c).ctx.status = .ERROR) :
    read_loop st (c :: rest) =
      (RC_UTILS_SOCKET_RECV, (prun st c).ctx.response) := by
  rw [read_loop, if_neg (by simp [hc]), parserExecute_full c st hnh]
  rw [if_pos (Or.inr herr)]

/-- A chunk holding the final bytes of the message plus extra bytes: the
parse halts at the message end, the consumed count falls short of the
chunk, and the loop returns `RC_UTILS_SOCKET_RECV` — the short-consume
check fires even though the message completed. -/
lemma read_loop_short {st : ParserState} {l extra : List Nat}
    (rest : List (List Nat)) (hextra : extra ≠ [])
    (hnh : ∀ j, j < l.length → halted (prun st (l.take j)) = false)
    (hh : halted (prun st l) = true) :
    read_loop st ((l ++ extra) :: rest) =
      (RC_UTILS_SOCKET_RECV, (prun st l).ctx.response) := by
  have hne : l ++ extra ≠ [] := by simp [hextra]
  rw [read_loop, if_neg (by simp [hne]), parserExecute_halt l extra st hnh hh]
  rw [if_pos (Or.inl (by
    have := List.length_pos.mpr hextra
    rw [List.length_append]
    omega))]

/-- The loop returns `RC_CCLIENT_HTTP` as soon as the transport reports
end-of-stream or a receive error. -/
lemma read_loop_eof (st : ParserState) (tail : List (List Nat)) :
    read_loop st ([] :: tail) = (RC_CCLIENT_HTTP, st.ctx.response) := by
  simp [read_loop]

/-! ### End-to-end receive lemmas -/

lemma http_response_read_as_loop (script : List (List Nat))
    (buf : CharBuffer) :
    http_response_read script buf = read_loop (initSt buf) script := rfl

/-- Any chunking of a complete well-formed response into nonempty chunks
reaches `RC_OK` with the buffer holding exactly the declared body. -/
lemma read_ok_of_chunks {hdr body : List Nat} {n : Nat}
    {cs : List (List Nat)} (buf : CharBuffer) (h : properHeader hdr)
    (hcl : contentLength hdr = some n) (hblen : body.length = n)
    (hcs : cs ≠ []) (hne : ∀ c ∈ cs, c ≠ [])
    (hflat : cs.flatten = hdr ++ body) :
    http_response_read cs buf = (RC_OK, ⟨n, body⟩) := by
  rcases List.eq_nil_or_concat cs with hnil | ⟨cs', c, hcs'⟩
  · exact absurd hnil hcs
  · rw [List.concat_eq_append] at hcs'
    subst hcs'
    have hc : c ≠ [] := hne c (by simp)
    have hcpos : 0 < c.length := List.length_pos.mpr hc
    have hflat' : cs'.flatten ++ c = hdr ++ body := by
      rw [← hflat]
      simp
    have hstrict : cs'.flatten.length + c.length = (hdr ++ body).length := by
      rw [← hflat', List.length_append]
    rw [http_response_read_as_loop,
      read_loop_walk cs' [c] (initSt buf) (fun d hd => hne d (by simp [hd]))
        (by
          intro j hj
          have hj' : j ≤ (hdr ++ body).length := by omega
          have := noHalt_wf h hcl (Nat.le_of_eq hblen) buf j hj'
            (by intro he; omega)
          rwa [← hflat', List.take_append_of_le_length hj] at this)]
    have hfin : prun (prun (initSt buf) cs'.flatten) c =
        prun (initSt buf) (hdr ++ body) := by
      rw [← prun_append, hflat']
    have hdone := prun_full h hcl (Nat.le_of_eq hblen) buf
    rw [if_pos hblen] at hdone
    rw [read_loop_done [] hc
      (by
        intro j hj
        have := noHalt_wf h hcl (Nat.le_of_eq hblen) buf
          (cs'.flatten.length + j) (by omega) (by intro he; omega)
        rwa [← hflat', List.take_append, prun_append] at this)
      (by rw [hfin, hdone])]
    rw [hfin, hdone]

/-- Delivering a well-formed header and only part of the declared body,
then end-of-stream: the read returns `RC_CCLIENT_HTTP` and the caller's
buffer holds the partial body bytes, zero-padded to the declared length. -/
lemma read_premature_of_chunks {hdr p : List Nat} {n : Nat}
    {cs : List (List Nat)} (buf : CharBuffer) (tail : List (List Nat))
    (h : properHeader hdr) (hcl : contentLength hdr = some n)
    (hplen : p.length < n) (hne : ∀ c ∈ cs, c ≠ [])
    (hflat : cs.flatten = hdr ++ p) :
    http_response_read (cs ++ [] :: tail) buf =
      (RC_CCLIENT_HTTP, ⟨n, p ++ List.replicate (n - p.length) 0⟩) := by
  rw [http_response_read_as_loop,
    read_loop_walk cs ([] :: tail) (initSt buf) hne
      (by
        intro j hj
        rw [hflat] at hj ⊢
        exact noHalt_wf h hcl (Nat.le_of_lt hplen) buf j hj
          (by intro _; exact hplen))]
  rw [read_loop_eof, hflat, prun_full h hcl (Nat.le_of_lt hplen) buf,
    if_neg (by omega)]

/-- A response declaring no finite content length: the headers-complete
callback fails, and the read returns `RC_UTILS_SOCKET_RECV` with the
caller's buffer untouched. -/
lemma read_undeclared {hdr : List Nat} (buf : CharBuffer)
    (tail : List (List Nat)) (h : properHeader hdr)
    (hcl : contentLength hdr = none) :
    http_response_read (hdr :: tail) buf = (RC_UTILS_SOCKET_RECV, buf) := by
  rw [http_response_read_as_loop,
    read_loop_callback_err tail (properHeader_ne_nil h)
      (by
        intro j hj
        have hrun := prun_headers_acc (hdr.take j) [] ⟨buf, 0, .OK⟩ rfl (by
          intro i _ hil
          have hlen : (hdr.take j).length ≤ j := by simp
          have htt : (hdr.take j).take i = hdr.take i := by
            rw [List.take_take, Nat.min_eq_left (by omega)]
          simp only [List.nil_append, htt]
          exact h.2 i (by omega))
        rw [halted_false_iff,
          show (initSt buf) = ⟨.headers [], ⟨buf, 0, .OK⟩⟩ from rfl, hrun])
      (by rw [prun_header_none h hcl])]
  rw [prun_header_none h hcl]

/-- A complete well-formed response followed by extra bytes inside the
final chunk: the parser stops at the message end, the chunk is short-
consumed, and the read reports `RC_UTILS_SOCKET_RECV` despite the message
having completed. -/
lemma read_extra_of_chunks {hdr body w extra : List Nat} {n : Nat}
    {prev : List (List Nat)} (buf : CharBuffer) (tail : List (List Nat))
    (h : properHeader hdr) (hcl : contentLength hdr = some n)
    (hblen : body.length = n) (hne : ∀ c ∈ prev, c ≠ [])
    (hw : w ≠ []) (hextra : extra ≠ [])
    (hsplit : prev.flatten ++ w = hdr ++ body) :
    http_response_read (prev ++ (w ++ extra) :: tail) buf =
      (RC_UTILS_SOCKET_RECV, ⟨n, body⟩) := by
  have hwpos : 0 < w.length := List.length_pos.mpr hw
  have hstrict : prev.flatten.length + w.length = (hdr ++ body).length := by
    rw [← hsplit, List.length_append]
  rw [http_response_read_as_loop,
    read_loop_walk prev ((w ++ extra) :: tail) (initSt buf) hne
      (by
        intro j hj
        have := noHalt_wf h hcl (Nat.le_of_eq hblen) buf j (by omega)
          (by intro he; omega)
        rwa [← hsplit, List.take_append_of_le_length hj] at this)]
  have hfin : prun (prun (initSt buf) prev.flatten) w =
      prun (initSt buf) (hdr ++ body) := by
    rw [← prun_append, hsplit]
  have hdone := prun_full h hcl (Nat.le_of_eq hblen) buf
  rw [if_pos hblen] at hdone
  rw [read_loop_short tail hextra
    (by
      intro j hj
      have := noHalt_wf h hcl (Nat.le_of_eq hblen) buf
        (prev.flatten.length + j) (by omega) (by intro he; omega)
      rwa [← hsplit, List.take_append, prun_append] at this)
    (by rw [hfin, hdone]; rfl)]
  rw [hfin, hdone]

/-! ### Attempt-level and retry-loop lemmas -/

/-- The successful world succeeds for any settings, any caller buffer: its
attempt returns `RC_OK` and leaves the reconstructed 5-byte body. -/
lemma csend_wOK (s : http_info_t) (buf : CharBuffer) :
    cclient_socket_send wOK s [] buf = (some RC_OK, bufOK) := by
  have hs2 : strBytes "HTTP/1.1 200 OK\r\nContent-Length: 5\r\n\r\nhello" =
      hdr5 ++ body5 := by decide
  have hread : http_response_read [hdr5 ++ body5] buf = (RC_OK, ⟨5, body5⟩) :=
    @read_ok_of_chunks hdr5 body5 5 [hdr5 ++ body5] buf (by decide)
      (by decide) (by decide) (by simp) (by decide) (by simp)
  simp [cclient_socket_send, wOK, http_request_header, http_request_data,
    hs2, hread, bufOK]

/-- The undeclared-length world fails with `RC_UTILS_SOCKET_RECV` for any
settings and leaves the caller's buffer untouched. -/
lemma csend_wNoLen (s : http_info_t) (buf : CharBuffer) :
    cclient_socket_send wNoLen s [] buf = (some RC_UTILS_SOCKET_RECV, buf) := by
  have hread : http_response_read [strBytes "HTTP/1.1 200 OK\r\n\r\n"] buf =
      (RC_UTILS_SOCKET_RECV, buf) :=
    read_undeclared buf [] (by decide) (by decide)
  simp [cclient_socket_send, wNoLen, http_request_header, http_request_data,
    hread]

/-- Closed form of the retry loop over `m` undeclared-length failures
followed by one success: the loop stops early once `retry` exceeds the
ceiling, reaches the success iff it lies within the budget, and otherwise
exhausts the budget. -/
lemma query_loop_mixed (ceiling : Nat) (s : http_info_t) :
    ∀ (m : Nat) (retry a : Nat) (buf : CharBuffer),
      query_loop ceiling s [] (List.replicate m wNoLen ++ [wOK]) buf
          RC_UTILS_SOCKET_RECV retry a =
        if ceiling < retry then some (RC_UTILS_SOCKET_RECV, buf, a)
        else if retry + m ≤ ceiling then some (RC_OK, bufOK, a + m + 1)
        else some (RC_UTILS_SOCKET_RECV, buf, a + (ceiling + 1 - retry))
  | 0, retry, a, buf => by
      rcases Nat.lt_or_ge ceiling retry with hlt | hge
      · rw [query_loop.eq_def]
        simp [hlt]
      · rw [query_loop.eq_def]
        simp only [List.replicate_zero, List.nil_append]
        rw [if_neg (by simp), if_neg (by omega)]
        simp only [csend_wOK s buf]
        rw [query_loop.eq_def, if_pos (by simp)]
        rw [if_neg (by omega), if_pos (by omega),
          show a + 0 + 1 = a + 1 by omega]
  | m + 1, retry, a, buf => by
      rcases Nat.lt_or_ge ceiling retry with hlt | hge
      · rw [query_loop.eq_def]
        simp [hlt]
      · rw [query_loop.eq_def]
        simp only [List.replicate_succ, List.cons_append]
        rw [if_neg (by simp), if_neg (by omega)]
        simp only [csend_wNoLen s buf]
        rw [query_loop_mixed ceiling s m (retry + 1) (a + 1) buf]
        rw [if_neg (show ¬ ceiling < retry by omega)]
        rcases Nat.lt_or_ge ceiling (retry + 1) with h2 | h2
        · rw [if_pos h2,
            if_neg (show ¬ retry + (m + 1) ≤ ceiling by omega),
            show ceiling + 1 - retry = 1 by omega]
        · rw [if_neg (show ¬ ceiling < retry + 1 by omega)]
          by_cases h3 : retry + (m + 1) ≤ ceiling
          · rw [if_pos (show retry + 1 + m ≤ ceiling by omega), if_pos h3,
              show a + 1 + m + 1 = a + (m + 1) + 1 by omega]
          · rw [if_neg (show ¬ retry + 1 + m ≤ ceiling by omega),
              if_neg h3,
              show a + 1 + (ceiling + 1 - (retry + 1)) =
                a + (ceiling + 1 - retry) by omega]

/-- The first attempt feeds the retry loop. -/
lemma iota_first {w : World} {s : http_info_t} {obj : List Nat}
    {buf buf' : CharBuffer} {r : retcode_t} (ceiling : Nat)
    (rest : List World)
    (h : cclient_socket_send w s obj buf = (some r, buf')) :
    iota_service_query ceiling s obj (w :: rest) buf =
      query_loop ceiling s obj rest buf' r 0 1 := by
  simp [iota_service_query, h]

/-- A first attempt whose result is not `RC_UTILS_SOCKET_RECV` is returned
to the caller at once, exactly as produced, after a single attempt. -/
lemma query_immediate {w : World} {s : http_info_t} {obj : List Nat}
    {buf buf' : CharBuffer} {r : retcode_t} (ceiling : Nat)
    (rest : List World)
    (h : cclient_socket_send w s obj buf = (some r, buf'))
    (hr : r ≠ RC_UTILS_SOCKET_RECV) :
    iota_service_query ceiling s obj (w :: rest) buf = some (r, buf', 1) := by
  rw [iota_first ceiling rest h, query_loop.eq_def, if_pos hr]

/-- Loop reduction: a result code other than `RC_UTILS_SOCKET_RECV` ends
the loop as is. -/
lemma query_loop_stop {ret : retcode_t} (ceiling : Nat) (s : http_info_t)
    (obj : List Nat) (worlds : List World) (buf : CharBuffer)
    (retry a : Nat) (hret : ret ≠ RC_UTILS_SOCKET_RECV) :
    query_loop ceiling s obj worlds buf ret retry a = some (ret, buf, a) := by
  rw [query_loop.eq_def, if_pos hret]

/-- Loop reduction: an exhausted retry budget ends the loop. -/
lemma query_loop_exhaust (ceiling : Nat) (s : http_info_t) (obj : List Nat)
    (worlds : List World) (buf : CharBuffer) (retry a : Nat)
    (h : ceiling < retry) :
    query_loop ceiling s obj worlds buf RC_UTILS_SOCKET_RECV retry a =
      some (RC_UTILS_SOCKET_RECV, buf, a) := by
  rw [query_loop.eq_def, if_neg (by simp), if_pos h]

/-- Loop reduction: budget left and a scripted attempt available. -/
lemma query_loop_cons {w : World} {s : http_info_t} {obj : List Nat}
    {buf buf' : CharBuffer} {r : retcode_t} (ceiling : Nat)
    (rest : List World) (retry a : Nat) (h2 : ¬ ceiling < retry)
    (hcs : cclient_socket_send w s obj buf = (some r, buf')) :
    query_loop ceiling s obj (w :: rest) buf RC_UTILS_SOCKET_RECV retry a =
      query_loop ceiling s obj rest buf' r (retry + 1) (a + 1) := by
  rw [query_loop.eq_def, if_neg (by simp), if_neg h2]
  simp [hcs]

/-- Loop reduction: budget left, an attempt available, but its transport
script under-specified. -/
lemma query_loop_cons_none {w : World} {s : http_info_t} {obj : List Nat}
    {buf buf' : CharBuffer} (ceiling : Nat) (rest : List World)
    (retry a : Nat) (h2 : ¬ ceiling < retry)
    (hcs : cclient_socket_send w s obj buf = (none, buf')) :
    query_loop ceiling s obj (w :: rest) buf RC_UTILS_SOCKET_RECV retry a =
      none := by
  rw [query_loop.eq_def, if_neg (by simp), if_neg h2]
  simp [hcs]

/-- Loop reduction: budget left but no attempt scripted. -/
lemma query_loop_nil (ceiling : Nat) (s : http_info_t) (obj : List Nat)
    (buf : CharBuffer) (retry a : Nat) (h2 : ¬ ceiling < retry) :
    query_loop ceiling s obj [] buf RC_UTILS_SOCKET_RECV retry a = none := by
  rw [query_loop.eq_def, if_neg (by simp), if_neg h2]

/-- The attempt counter only grows along the retry loop. -/
lemma query_loop_attempts_ge (ceiling : Nat) (s : http_info_t)
    (obj : List Nat) :
    ∀ (worlds : List World) (buf : CharBuffer) (ret : retcode_t)
      (retry a : Nat) (res : retcode_t × CharBuffer × Nat),
      query_loop ceiling s obj worlds buf ret retry a = some res →
      a ≤ res.2.2
  | worlds, buf, ret, retry, a, res => by
      intro h
      by_cases h1 : ret ≠ RC_UTILS_SOCKET_RECV
      · rw [query_loop_stop ceiling s obj worlds buf retry a h1] at h
        injection h with h2
        subst h2
        simp
      · push_neg at h1
        subst h1
        by_cases h2 : ceiling < retry
        · rw [query_loop_exhaust ceiling s obj worlds buf retry a h2] at h
          injection h with h3
          subst h3
          simp
        · cases worlds with
          | nil =>
              rw [query_loop_nil ceiling s obj buf retry a h2] at h
              exact absurd h (by simp)
          | cons w rest =>
              cases hcs : cclient_socket_send w s obj buf with
              | mk o buf' =>
                  cases o with
                  | some r =>
                      rw [query_loop_cons ceiling rest retry a h2 hcs] at h
                      have := query_loop_attempts_ge ceiling s obj rest buf' r
                        (retry + 1) (a + 1) res h
                      omega
                  | none =>
                      rw [query_loop_cons_none ceiling rest retry a h2 hcs]
                        at h
                      exact absurd h (by simp)

/-- A first attempt that does return `RC_UTILS_SOCKET_RECV` is always
re-attempted: any final result records at least two attempts. -/
lemma query_retries {w : World} {s : http_info_t} {obj : List Nat}
    {buf buf' : CharBuffer} (ceiling : Nat) (rest : List World)
    {res : retcode_t × CharBuffer × Nat}
    (h : cclient_socket_send w s obj buf = (some RC_UTILS_SOCKET_RECV, buf'))
    (hres : iota_service_query ceiling s obj (w :: rest) buf = some res) :
    2 ≤ res.2.2 := by
  rw [iota_first ceiling rest h] at hres
  cases rest with
  | nil =>
      rw [query_loop_nil ceiling s obj buf' 0 1 (by omega)] at hres
      exact absurd hres (by simp)
  | cons w2 r2 =>
      cases hcs : cclient_socket_send w2 s obj buf' with
      | mk o buf2 =>
          cases o with
          | some r =>
              rw [query_loop_cons ceiling r2 0 1 (by omega) hcs] at hres
              exact query_loop_attempts_ge ceiling s obj r2 buf2 r 1 2 res hres
          | none =>
              rw [query_loop_cons_none ceiling r2 0 1 (by omega) hcs] at hres
              exact absurd hres (by simp)

/-! ### Send-path lemmas -/

/-- Any result code `http_request_data` can produce is `RC_OK` or the
immediate send failure. -/
lemma request_data_code :
    ∀ (sends : List Int) (data : List Nat) (r : retcode_t) (wire : List Nat),
      http_request_data sends data = (some r, wire) →
      r = RC_OK ∨ r = RC_UTILS_SOCKET_SEND
  | sends, [], r, wire => by
      intro h
      have h0 : http_request_data sends [] = (some RC_OK, []) := by
        rw [http_request_data.eq_def]
      rw [h0] at h
      injection h with e1 e2
      injection e1 with e1
      exact Or.inl e1.symm
  | [], d :: ds, r, wire => by
      intro h
      have h0 : http_request_data [] (d :: ds) = (none, []) := by
        rw [http_request_data.eq_def]
      rw [h0] at h
      injection h with e1 e2
      exact Option.noConfusion e1
  | n :: rest, d :: ds, r, wire => by
      intro h
      by_cases hn : n < 0
      · simp [http_request_data, hn] at h
        exact Or.inr h.1.symm
      · simp only [http_request_data, if_neg hn] at h
        cases hrec : http_request_data rest ((d :: ds).drop n.toNat) with
        | mk o w2 =>
            rw [hrec] at h
            injection h with h1 h2
            cases o with
            | some r2 =>
                injection h1 with h3
                subst h3
                exact request_data_code rest ((d :: ds).drop n.toNat) r2 w2
                  hrec
            | none => exact absurd h1 (by simp)

/-- When every scripted send stays within what was asked and the loop
reports `RC_OK`, the transport received exactly the body bytes, in order:
the cursor advanced by precisely each reported count. -/
lemma request_data_ok :
    ∀ (sends : List Int) (data : List Nat) (wire : List Nat),
      sends_ok sends data.length = true →
      http_request_data sends data = (some RC_OK, wire) →
      wire = data
  | sends, [], wire => by
      intro _ h
      have h0 : http_request_data sends [] = (some RC_OK, []) := by
        rw [http_request_data.eq_def]
      rw [h0] at h
      injection h with e1 e2
      exact e2.symm
  | [], d :: ds, wire => by
      intro _ h
      have h0 : http_request_data [] (d :: ds) = (none, []) := by
        rw [http_request_data.eq_def]
      rw [h0] at h
      injection h with e1 e2
      exact Option.noConfusion e1
  | n :: rest, d :: ds, wire => by
      intro hok h
      by_cases hn : n < 0
      · simp [http_request_data, hn] at h
      · simp only [http_request_data, if_neg hn] at h
        simp only [List.length_cons, sends_ok, if_neg hn, Bool.and_eq_true,
          decide_eq_true_eq] at hok
        cases hrec : http_request_data rest ((d :: ds).drop n.toNat) with
        | mk o w2 =>
            rw [hrec] at h
            injection h with h1 h2
            cases o with
            | some r2 =>
                injection h1 with h3
                subst h3
                have hlen : ((d :: ds).drop n.toNat).length =
                    ds.length + 1 - n.toNat := by
                  simp
                have hw2 : w2 = (d :: ds).drop n.toNat :=
                  request_data_ok rest ((d :: ds).drop n.toNat) w2
                    (by rw [hlen]; exact hok.2) hrec
                rw [← h2, hw2, List.take_append_drop]
            | none => exact absurd h1 (by simp)

/-- A negative send result aborts at once with the send failure, handing
nothing further to the transport. -/
lemma request_data_neg {e : Int} (sends : List Int) {data : List Nat}
    (he : e < 0) (hd : data ≠ []) :
    http_request_data (e :: sends) data =
      (some RC_UTILS_SOCKET_SEND, []) := by
  cases data with
  | nil => exact absurd rfl hd
  | cons d ds => simp [http_request_data, he]

/-! ### Buffer-bounds invariant -/

lemma writeAt_length {dst src : List Nat} {off : Nat}
    (h : off + src.length ≤ dst.length) :
    (writeAt dst off src).length = dst.length := by
  simp [writeAt]
  omega

lemma pstep_inv {st : ParserState} (hinv : stInv st)
    (hh : halted st = false) (b : Nat) : stInv (pstep st b) := by
  have hok : st.ctx.status = .OK := halted_false_iff.mp hh
  obtain ⟨st_phase, st_ctx⟩ := st
  cases st_phase with
  | headers acc =>
      by_cases ht : endsWithTerm (acc ++ [b])
      · cases hcl : contentLength (acc ++ [b]) with
        | none =>
            rw [pstep_fire_none ht hcl]
            exact ⟨hinv.1, by intro r hr; exact absurd hr (by simp)⟩
        | some n =>
            rcases Nat.eq_zero_or_pos n with hn | hn
            · subst hn
              rw [pstep_fire_zero ht hcl]
              refine ⟨by simp, ?_⟩
              intro r hr
              simp at hr
              subst hr
              simp
            · rw [pstep_fire_pos hok ht hcl hn]
              refine ⟨by simp, ?_⟩
              intro r hr
              simp at hr
              subst hr
              simp
              omega
      · rw [pstep_headers_no_term (by simpa using ht)]
        exact ⟨hinv.1, by intro r hr; exact absurd hr (by simp)⟩
  | body r =>
      have hbody := hinv.2 r rfl
      simp only [] at hbody hok
      obtain ⟨hb1, hb2, hb3⟩ := hbody
      have hr1 : 1 ≤ r := hb3 hok
      have hlen : (writeAt st_ctx.response.data st_ctx.offset [b]).length =
          st_ctx.response.data.length :=
        writeAt_length (by simp only [List.length_cons, List.length_nil]; omega)
      by_cases hr : r ≤ 1
      · have hstep : pstep ⟨.body r, st_ctx⟩ b =
            ⟨.body 0,
              ⟨⟨st_ctx.response.cap,
                  writeAt st_ctx.response.data st_ctx.offset [b]⟩,
                st_ctx.offset + 1, .DONE⟩⟩ := by
          simp [pstep, request_parse_data, request_parse_message_complete, hr]
        rw [hstep]
        refine ⟨by simp only []; omega, ?_⟩
        intro r' hr'
        simp only [PPhase.body.injEq] at hr'
        subst hr'
        refine ⟨by simp only []; omega, by simp only []; omega, ?_⟩
        intro hd
        exact absurd hd (by simp)
      · have hstep : pstep ⟨.body r, st_ctx⟩ b =
            ⟨.body (r - 1),
              ⟨⟨st_ctx.response.cap,
                  writeAt st_ctx.response.data st_ctx.offset [b]⟩,
                st_ctx.offset + 1, st_ctx.status⟩⟩ := by
          simp [pstep, request_parse_data, hr]
        rw [hstep]
        refine ⟨by simp only []; omega, ?_⟩
        intro r' hr'
        simp only [PPhase.body.injEq] at hr'
        subst hr'
        exact ⟨by simp only []; omega, by simp only []; omega,
          fun _ => by omega⟩

lemma parserExecute_inv :
    ∀ (l : List Nat) (st : ParserState), stInv st →
      stInv (parserExecute st l).2
  | [], st, hinv => hinv
  | b :: rest, st, hinv => by
      rw [parserExecute]
      by_cases hh : halted st
      · rw [if_pos hh]
        exact hinv
      · rw [if_neg hh]
        exact parserExecute_inv rest (pstep st b)
          (pstep_inv hinv (by simpa using hh) b)

lemma read_loop_inv :
    ∀ (script : List (List Nat)) (st : ParserState), stInv st →
      (read_loop st script).2.data.length ≤ (read_loop st script).2.cap
  | [], st, hinv => hinv.1
  | chunk :: rest, st, hinv => by
      rw [read_loop]
      by_cases hc : chunk.isEmpty
      · rw [if_pos hc]
        exact hinv.1
      · rw [if_neg hc]
        have hinv' := parserExecute_inv chunk st hinv
        by_cases h1 : (parserExecute st chunk).1 < chunk.length ∨
            (parserExecute st chunk).2.ctx.status = .ERROR
        · rw [if_pos h1]
          exact hinv'.1
        · rw [if_neg h1]
          by_cases h2 : (parserExecute st chunk).2.ctx.status = .DONE
          · rw [if_pos h2]
            exact hinv'.1
          · rw [if_neg h2]
            exact read_loop_inv rest (parserExecute st chunk).2 hinv'

/-! ### Header-format lemmas -/

lemma strBytes_append (a b : String) :
    strBytes (a ++ b) = strBytes a ++ strBytes b := by
  simp only [strBytes]
  rw [show (a ++ b).toList = a.toList ++ b.toList from rfl, List.map_append]

/-! ### Claim theorems -/

/-- C1 (counterexample): a body-data event at a context whose offset
already equals the capacity (2 bytes written into a 2-byte buffer) and two
more incoming bytes — `length + incoming > capacity`.  The claim demands
the write be rejected with a fatal `Overflow`; instead `request_parse_data`
returns success (0), leaves the status `OK` (the parse does not end in any
failure), and writes the bytes at offsets 2 and 3, at and past capacity. -/
theorem C1_counterexample :
    (request_parse_data ⟨⟨2, [0, 0]⟩, 2, .OK⟩ [7, 8]).1 = 0 ∧
    (request_parse_data ⟨⟨2, [0, 0]⟩, 2, .OK⟩ [7, 8]).2.status = .OK ∧
    (request_parse_data ⟨⟨2, [0, 0]⟩, 2, .OK⟩ [7, 8]).2.response.data =
      [0, 0, 7, 8] ∧
    (request_parse_data ⟨⟨2, [0, 0]⟩, 2, .OK⟩ [7, 8]).2.offset = 4 := by
  decide

/-- C1 (amended): `request_parse_data` performs no capacity check — it
accepts every body-data event unconditionally — and the code has no
`Overflow` failure; nevertheless, in every run of `http_response_read`
over any transport script, the buffer handed back never holds more bytes
than its capacity, because the (spec-modelled) parser delivers at most the
declared content length of body bytes. -/
theorem C1_amended (script : List (List Nat)) (buf : CharBuffer)
    (h : buf.data.length ≤ buf.cap) :
    (http_response_read script buf).2.data.length ≤
      (http_response_read script buf).2.cap := by
  rw [http_response_read_as_loop]
  exact read_loop_inv script (initSt buf)
    ⟨h, by intro r hr; exact absurd hr (by simp [initSt])⟩

/-- C1 (witness): the bound holds on a concrete run. -/
theorem C1_witness :
    (⟨0, []⟩ : CharBuffer).data.length ≤ (⟨0, []⟩ : CharBuffer).cap ∧
    (http_response_read [hdr5 ++ body5] ⟨0, []⟩).2.data.length ≤
      (http_response_read [hdr5 ++ body5] ⟨0, []⟩).2.cap :=
  ⟨by decide, C1_amended [hdr5 ++ body5] ⟨0, []⟩ (by decide)⟩

/-- C3 (counterexample): a response declaring 5 body bytes delivers only
`"he"` and the stream closes.  The attempt fails (`RC_CCLIENT_HTTP`, not
`RC_OK`), yet the returned caller buffer holds the partially written body
bytes `"he"` — the buffer is not withheld from the caller on failure. -/
theorem C3_counterexample :
    (http_response_read
        [strBytes "HTTP/1.1 200 OK\r\nContent-Length: 5\r\n\r\nhe", []]
        ⟨0, []⟩).1 ≠ RC_OK ∧
    http_response_read
        [strBytes "HTTP/1.1 200 OK\r\nContent-Length: 5\r\n\r\nhe", []]
        ⟨0, []⟩ =
      (RC_CCLIENT_HTTP, ⟨5, strBytes "he" ++ [0, 0, 0]⟩) := by
  decide

/-- C3 (amended): parse state is created fresh inside every
`http_response_read` call, but the ResponseBuffer is the caller's buffer,
mutated in place: on every premature-close failure after `p` body bytes
arrived, the caller observes a buffer holding exactly those partial bytes
(zero-padded to the declared length) — it is not discarded on failure, and
the same caller buffer is what a retry reuses. -/
theorem C3_amended {hdr p : List Nat} {n : Nat} {cs : List (List Nat)}
    (buf : CharBuffer) (tail : List (List Nat)) (h : properHeader hdr)
    (hcl : contentLength hdr = some n) (hplen : p.length < n)
    (hne : ∀ c ∈ cs, c ≠ []) (hflat : cs.flatten = hdr ++ p) :
    (http_response_read (cs ++ [] :: tail) buf).1 ≠ RC_OK ∧
    (http_response_read (cs ++ [] :: tail) buf).2 =
      ⟨n, p ++ List.replicate (n - p.length) 0⟩ := by
  rw [read_premature_of_chunks buf tail h hcl hplen hne hflat]
  exact ⟨by simp, rfl⟩

/-- C3 (witness): the amended claim at a concrete partial delivery. -/
theorem C3_witness :
    properHeader hdr5 ∧
    (http_response_read [hdr5 ++ strBytes "he", []] ⟨0, []⟩).2 =
      ⟨5, strBytes "he" ++ List.replicate 3 0⟩ := by
  refine ⟨by decide, ?_⟩
  have := @C3_amended hdr5 (strBytes "he") 5 [hdr5 ++ strBytes "he"]
    ⟨0, []⟩ [] (by decide) (by decide) (by decide) (by decide) (by decide)
  exact this.2

/-- C7 (confirmed): whenever the bytes delivered before end-of-stream form
a well-formed header plus strictly fewer body bytes than the declared
content length, `http_response_read` returns `RC_CCLIENT_HTTP` — the
code's premature-close failure — and never `RC_OK`. -/
theorem C7_theorem {hdr p : List Nat} {n : Nat} {cs : List (List Nat)}
    (buf : CharBuffer) (tail : List (List Nat)) (h : properHeader hdr)
    (hcl : contentLength hdr = some n) (hplen : p.length < n)
    (hne : ∀ c ∈ cs, c ≠ []) (hflat : cs.flatten = hdr ++ p) :
    (http_response_read (cs ++ [] :: tail) buf).1 = RC_CCLIENT_HTTP ∧
    (http_response_read (cs ++ [] :: tail) buf).1 ≠ RC_OK := by
  rw [read_premature_of_chunks buf tail h hcl hplen hne hflat]
  exact ⟨rfl, by simp⟩

/-- C7 (witness): premature close at a concrete two-chunk delivery. -/
theorem C7_witness :
    properHeader hdr5 ∧ contentLength hdr5 = some 5 ∧
    (http_response_read [hdr5, strBytes "hell", []] ⟨0, []⟩).1 =
      RC_CCLIENT_HTTP := by
  refine ⟨by decide, by decide, ?_⟩
  have := @C7_theorem hdr5 (strBytes "hell") 5 [hdr5, strBytes "hell"]
    ⟨0, []⟩ [] (by decide) (by decide) (by decide) (by decide) (by decide)
  exact this.1

/-- C8 (confirmed): for every split of a well-formed response
(header block declaring `n`, followed by exactly `n` body bytes) into
nonempty chunks, feeding the chunks in order reaches `RC_OK` with the
buffer holding exactly the body — the result does not mention the
chunking, so chunk boundaries cannot change it. -/
theorem C8_theorem {hdr body : List Nat} {n : Nat} {cs : List (List Nat)}
    (buf : CharBuffer) (h : properHeader hdr)
    (hcl : contentLength hdr = some n) (hblen : body.length = n)
    (hcs : cs ≠ []) (hne : ∀ c ∈ cs, c ≠ [])
    (hflat : cs.flatten = hdr ++ body) :
    http_response_read cs buf = (RC_OK, ⟨n, body⟩) :=
  read_ok_of_chunks buf h hcl hblen hcs hne hflat

/-- C8 (witness): a three-chunk split (boundaries inside the header and
inside the body) and a one-chunk split of the same response yield the same
completed result. -/
theorem C8_witness :
    http_response_read
        [strBytes "HTTP/1.1 200 OK\r\nCont", strBytes "ent-Length: 5\r\n\r\nhel",
          strBytes "lo"] ⟨0, []⟩ = (RC_OK, ⟨5, body5⟩) ∧
    http_response_read [hdr5 ++ body5] ⟨7, [1, 2]⟩ = (RC_OK, ⟨5, body5⟩) :=
  ⟨@C8_theorem hdr5 body5 5
      [strBytes "HTTP/1.1 200 OK\r\nCont", strBytes "ent-Length: 5\r\n\r\nhel",
        strBytes "lo"] ⟨0, []⟩ (by decide) (by decide) (by decide) (by decide)
      (by decide) (by decide),
    @C8_theorem hdr5 body5 5 [hdr5 ++ body5] ⟨7, [1, 2]⟩ (by decide)
      (by decide) (by decide) (by decide) (by decide) (by decide)⟩

/-- C10 (confirmed): when the final bytes `w` of a well-formed response
arrive in one chunk together with extra bytes beyond the message, the
parser consumes only `w` (the message completes inside that chunk), the
short-consume check fires first, and `http_response_read` reports
`RC_UTILS_SOCKET_RECV` — never `RC_OK` — despite the completed message. -/
theorem C10_theorem {hdr body w extra : List Nat} {n : Nat}
    {prev : List (List Nat)} (buf : CharBuffer) (tail : List (List Nat))
    (h : properHeader hdr) (hcl : contentLength hdr = some n)
    (hblen : body.length = n) (hne : ∀ c ∈ prev, c ≠ [])
    (hw : w ≠ []) (hextra : extra ≠ [])
    (hsplit : prev.flatten ++ w = hdr ++ body) :
    http_response_read (prev ++ (w ++ extra) :: tail) buf =
      (RC_UTILS_SOCKET_RECV, ⟨n, body⟩) ∧
    (http_response_read (prev ++ (w ++ extra) :: tail) buf).1 ≠ RC_OK := by
  rw [read_extra_of_chunks buf tail h hcl hblen hne hw hextra hsplit]
  exact ⟨rfl, by simp⟩

/-- C10 (witness): a complete response whose last chunk carries the final
three body bytes plus four extra bytes is reported as a receive error. -/
theorem C10_witness :
    properHeader hdr5 ∧
    http_response_read
        [strBytes "HTTP/1.1 200 OK\r\nContent-Length: 5\r\n\r\nhe",
          strBytes "llo" ++ strBytes "XTRA"] ⟨0, []⟩ =
      (RC_UTILS_SOCKET_RECV, ⟨5, body5⟩) := by
  refine ⟨by decide, ?_⟩
  have := @C10_theorem hdr5 body5 (strBytes "llo") (strBytes "XTRA") 5
    [strBytes "HTTP/1.1 200 OK\r\nContent-Length: 5\r\n\r\nhe"] ⟨0, []⟩ []
    (by decide) (by decide) (by decide) (by decide) (by decide) (by decide)
    (by decide)
  exact this.1

/-- C2 (counterexample): a response with no declared content length is,
per the claim, `Failed(UndeclaredLength)` — to be returned immediately,
never re-attempted.  The code instead maps it to `RC_UTILS_SOCKET_RECV`,
which the retry loop retries: after the first attempt fails this way, a
second attempt runs and the call returns `RC_OK` after 2 attempts. -/
theorem C2_counterexample :
    iota_service_query 5 s0 [] [wNoLen, wOK] ⟨0, []⟩ =
      some (RC_OK, bufOK, 2) := by
  decide

/-- C2 (amended): the loop retries exactly the attempts whose result is
`RC_UTILS_SOCKET_RECV`: (1) any other code — including the premature-close
code `RC_CCLIENT_HTTP` and the send failures — is returned to the caller
immediately after one attempt, exactly as produced; (2) a first attempt
returning `RC_UTILS_SOCKET_RECV` is always re-attempted (every final
result records at least two attempts); and (3) an undeclared content
length is classified as `RC_UTILS_SOCKET_RECV` — conflated with parse
errors and retried rather than surfaced as a distinct fatal kind. -/
theorem C2_amended :
    (∀ (ceiling : Nat) (s : http_info_t) (obj : List Nat) (w : World)
        (rest : List World) (buf buf' : CharBuffer) (r : retcode_t),
        cclient_socket_send w s obj buf = (some r, buf') →
        r ≠ RC_UTILS_SOCKET_RECV →
        iota_service_query ceiling s obj (w :: rest) buf =
          some (r, buf', 1)) ∧
    (∀ (ceiling : Nat) (s : http_info_t) (obj : List Nat) (w : World)
        (rest : List World) (buf buf' : CharBuffer)
        (res : retcode_t × CharBuffer × Nat),
        cclient_socket_send w s obj buf =
          (some RC_UTILS_SOCKET_RECV, buf') →
        iota_service_query ceiling s obj (w :: rest) buf = some res →
        2 ≤ res.2.2) ∧
    (∀ (hdr : List Nat) (buf : CharBuffer) (tail : List (List Nat)),
        properHeader hdr → contentLength hdr = none →
        http_response_read (hdr :: tail) buf =
          (RC_UTILS_SOCKET_RECV, buf)) :=
  ⟨fun ceiling _ _ _ rest _ _ _ hcs hr => query_immediate ceiling rest hcs hr,
   fun ceiling _ _ _ rest _ _ _ hcs hres => query_retries ceiling rest hcs hres,
   fun _ buf tail h hcl => read_undeclared buf tail h hcl⟩

/-- C2 (witness): the three amended clauses at concrete transports — a
premature close returned as `RC_CCLIENT_HTTP` after exactly one attempt, a
retried `RC_UTILS_SOCKET_RECV` first attempt, and a concrete
undeclared-length response classified as `RC_UTILS_SOCKET_RECV`. -/
theorem C2_witness :
    iota_service_query 3 s0 [] [wPartial, wOK] ⟨0, []⟩ =
      some (RC_CCLIENT_HTTP, ⟨5, strBytes "he" ++ [0, 0, 0]⟩, 1) ∧
    2 ≤ (RC_OK, bufOK, 2).2.2 ∧
    http_response_read [strBytes "HTTP/1.1 200 OK\r\n\r\n"] ⟨9, [1]⟩ =
      (RC_UTILS_SOCKET_RECV, ⟨9, [1]⟩) :=
  ⟨C2_amended.1 3 s0 [] wPartial [wOK] ⟨0, []⟩
      ⟨5, strBytes "he" ++ [0, 0, 0]⟩ RC_CCLIENT_HTTP (by decide) (by decide),
   C2_amended.2.1 5 s0 [] wNoLen [wOK] ⟨0, []⟩ ⟨0, []⟩ (RC_OK, bufOK, 2)
      (by decide) (by decide),
   C2_amended.2.2 (strBytes "HTTP/1.1 200 OK\r\n\r\n") ⟨9, [1]⟩ []
      (by decide) (by decide)⟩

/-- C4 (counterexample): with the receive phase failing retryably exactly
`k = 1` time and a retry ceiling of `0 < k`, the claim requires the
retryable failure to be returned after `ceiling + 1 = 1` attempt; the code
instead runs 2 attempts (its loop guard is `retry > ceiling`, an off-by-one
against the claim) and returns `RC_OK`. -/
theorem C4_counterexample :
    iota_service_query 0 s0 [] [wNoLen, wOK] ⟨0, []⟩ =
      some (RC_OK, bufOK, 2) := by
  decide

/-- C4 (amended): with attempts failing retryably exactly `k` times and
then succeeding, the call returns `RC_OK` after `k + 1` attempts whenever
`k ≤ ceiling + 1` (so in particular whenever `ceiling ≥ k`); when
`ceiling + 1 < k` it returns the retryable failure after exactly
`ceiling + 2` attempts — one more than the claim's `ceiling + 1` — and
performs no further attempts. -/
theorem C4_amended (ceiling k : Nat) (s : http_info_t) (buf : CharBuffer) :
    (k ≤ ceiling + 1 →
      iota_service_query ceiling s []
          (List.replicate k wNoLen ++ [wOK]) buf =
        some (RC_OK, bufOK, k + 1)) ∧
    (ceiling + 1 < k →
      iota_service_query ceiling s []
          (List.replicate k wNoLen ++ [wOK]) buf =
        some (RC_UTILS_SOCKET_RECV, buf, ceiling + 2)) := by
  cases k with
  | zero =>
      refine ⟨fun _ => ?_, fun hc => absurd hc (by omega)⟩
      simp only [List.replicate_zero, List.nil_append]
      rw [iota_first ceiling [] (csend_wOK s buf)]
      rw [query_loop_stop ceiling s [] [] bufOK 0 1 (by simp)]
  | succ m =>
      have hstep :
          iota_service_query ceiling s []
              (List.replicate (m + 1) wNoLen ++ [wOK]) buf =
            query_loop ceiling s [] (List.replicate m wNoLen ++ [wOK]) buf
              RC_UTILS_SOCKET_RECV 0 1 := by
        simp only [List.replicate_succ, List.cons_append]
        exact iota_first ceiling _ (csend_wNoLen s buf)
      rw [hstep, query_loop_mixed ceiling s m 0 1 buf,
        if_neg (by omega)]
      constructor
      · intro hk
        rw [if_pos (by omega), show 1 + m + 1 = m + 1 + 1 by omega]
      · intro hc
        rw [if_neg (by omega),
          show 1 + (ceiling + 1 - 0) = ceiling + 2 by omega]

/-- C4 (witness): both amended clauses at concrete parameters — two
retryable failures then success under ceiling 2 gives `RC_OK` after 3
attempts; three failures under ceiling 1 exhaust the budget after 3
attempts. -/
theorem C4_witness :
    (2 ≤ 2 + 1 ∧
      iota_service_query 2 s0 [] (List.replicate 2 wNoLen ++ [wOK]) ⟨0, []⟩ =
        some (RC_OK, bufOK, 3)) ∧
    (1 + 1 < 3 ∧
      iota_service_query 1 s0 [] (List.replicate 3 wNoLen ++ [wOK]) ⟨0, []⟩ =
        some (RC_UTILS_SOCKET_RECV, ⟨0, []⟩, 3)) :=
  ⟨⟨by decide, (C4_amended 2 2 s0 ⟨0, []⟩).1 (by decide)⟩,
   ⟨by decide, (C4_amended 1 3 s0 ⟨0, []⟩).2 (by decide)⟩⟩

set_option maxRecDepth 8000 in
/-- C5 (counterexample): the emitted header contains no `X-API-Version`
field at all — not even as a substring, so no header line can read
`X-API-Version: <version>`.  (The template writes `X-IOTA-API-Version`.) -/
theorem C5_counterexample :
    ¬ (strBytes "X-API-Version: " <:+: strBytes (header_string s0 11)) := by
  decide

/-- C5 (amended): for every `RequestSpec`, the emitted header block
contains the line `X-IOTA-API-Version: <version>` (not `X-API-Version`),
contains a `Content-Length` line exactly equal to the body's byte length,
is terminated by an empty line (`CRLF CRLF` suffix), and — whenever the
body send loop reports success under in-bounds scripted sends — the wire
carries the body bytes unmodified right after the header. -/
theorem C5_amended (s : http_info_t) (data : List Nat) (sends : List Int)
    (hdr_send : Int) :
    (strBytes ("X-IOTA-API-Version: " ++ toString s.api_version ++ "\r\n")
      <:+: strBytes (header_string s data.length)) ∧
    (strBytes ("Content-Length: " ++ toString data.length ++ "\r\n")
      <:+: strBytes (header_string s data.length)) ∧
    (strBytes "\r\n\r\n" <:+ strBytes (header_string s data.length)) ∧
    (sends_ok sends data.length = true →
      (http_request_data sends data).1 = some RC_OK →
      request_wire hdr_send sends s data =
        strBytes (header_string s data.length) ++ data) := by
  have hsplit4 : strBytes "\r\n\r\n" = strBytes "\r\n" ++ strBytes "\r\n" := by
    decide
  refine ⟨?_, ?_, ?_, ?_⟩
  · refine ⟨strBytes ("POST " ++ s.path ++ " HTTP/1.1\r\n" ++ "Host: " ++
      s.host ++ "\r\n"),
      strBytes ("Content-Type: " ++ s.content_type ++ "\r\n" ++ "Accept: " ++
        s.accept ++ "\r\n" ++ "Content-Length: " ++ toString data.length ++
        "\r\n" ++ "\r\n"), ?_⟩
    simp [header_string, strBytes_append, List.append_assoc]
  · refine ⟨strBytes ("POST " ++ s.path ++ " HTTP/1.1\r\n" ++ "Host: " ++
      s.host ++ "\r\n" ++ "X-IOTA-API-Version: " ++
      toString s.api_version ++ "\r\n" ++ "Content-Type: " ++
      s.content_type ++ "\r\n" ++ "Accept: " ++ s.accept ++ "\r\n"),
      strBytes "\r\n", ?_⟩
    simp [header_string, strBytes_append, List.append_assoc]
  · refine ⟨strBytes ("POST " ++ s.path ++ " HTTP/1.1\r\n" ++ "Host: " ++
      s.host ++ "\r\n" ++ "X-IOTA-API-Version: " ++
      toString s.api_version ++ "\r\n" ++ "Content-Type: " ++
      s.content_type ++ "\r\n" ++ "Accept: " ++ s.accept ++ "\r\n" ++
      "Content-Length: " ++ toString data.length), ?_⟩
    rw [hsplit4]
    simp [header_string, strBytes_append, List.append_assoc]
  · intro hok hco
    have hpair : http_request_data sends data =
        (some RC_OK, (http_request_data sends data).2) := by
      rw [← hco]
    have hwire := request_data_ok sends data
      (http_request_data sends data).2 hok hpair
    rw [request_wire, hwire]
    rfl

/-- C5 (witness): the amended format facts at the spec's own scenario —
path `/api`, host `node.example`, version 1, an 11-byte body. -/
theorem C5_witness :
    (strBytes ("X-IOTA-API-Version: " ++ toString s0.api_version ++ "\r\n")
      <:+: strBytes (header_string s0 (strBytes "hello world").length)) ∧
    sends_ok [11] (strBytes "hello world").length = true ∧
    request_wire 1 [11] s0 (strBytes "hello world") =
      strBytes (header_string s0 (strBytes "hello world").length) ++
        strBytes "hello world" :=
  ⟨(C5_amended s0 (strBytes "hello world") [11] 1).1,
   by decide,
   (C5_amended s0 (strBytes "hello world") [11] 1).2.2.2 (by decide)
     (by decide)⟩

/-- C6 (counterexample): the header send reports the negative result `-2`;
the claim requires any negative send result to abort the attempt with a
send failure, but the code only tests for `-1`, so the attempt proceeds —
body sent, response read — and returns `RC_OK`. -/
theorem C6_counterexample :
    cclient_socket_send wBadHdr s0 [] ⟨0, []⟩ = (some RC_OK, bufOK) := by
  decide

/-- C6 (amended): the body-send loop advances its cursor by exactly the
reported counts — under in-bounds scripted sends, `RC_OK` implies the
transport received precisely the body bytes in order; its only error
result is `RC_UTILS_SOCKET_SEND`; a negative body-send result aborts at
once, handing over nothing; a body-send failure is returned to the caller
after a single attempt (never retried); and the header send aborts (with
`RC_CCLIENT_HTTP_REQ`) only when its result is exactly `-1` — other
negative header-send results are treated as success. -/
theorem C6_amended :
    (∀ (sends : List Int) (data wire : List Nat),
        sends_ok sends data.length = true →
        http_request_data sends data = (some RC_OK, wire) → wire = data) ∧
    (∀ (sends : List Int) (data : List Nat) (r : retcode_t)
        (wire : List Nat),
        http_request_data sends data = (some r, wire) →
        r = RC_OK ∨ r = RC_UTILS_SOCKET_SEND) ∧
    (∀ (e : Int) (sends : List Int) (data : List Nat), e < 0 → data ≠ [] →
        http_request_data (e :: sends) data =
          (some RC_UTILS_SOCKET_SEND, [])) ∧
    (∀ (ceiling : Nat) (s : http_info_t) (rest : List World)
        (buf : CharBuffer),
        iota_service_query ceiling s [42] (wSendFail :: rest) buf =
          some (RC_UTILS_SOCKET_SEND, buf, 1)) ∧
    (∀ (s : http_info_t) (buf : CharBuffer) (sends : List Int)
        (script : List (List Nat)),
        cclient_socket_send ⟨true, -1, sends, script⟩ s [] buf =
          (some RC_CCLIENT_HTTP_REQ, buf)) := by
  refine ⟨request_data_ok, request_data_code,
    fun e sends data he hd => request_data_neg sends he hd, ?_, ?_⟩
  · intro ceiling s rest buf
    have hcs : cclient_socket_send wSendFail s [42] buf =
        (some RC_UTILS_SOCKET_SEND, buf) := by
      simp [cclient_socket_send, wSendFail, http_request_header,
        show http_request_data [-1] [42] =
          (some RC_UTILS_SOCKET_SEND, []) from by decide]
    exact query_immediate ceiling rest hcs (by decide)
  · intro s buf sends script
    simp [cclient_socket_send, http_request_header]

/-- C6 (witness): concrete partial sends 2-then-3 of a 5-byte body
transmit exactly the body; a first negative body-send result aborts the
whole call after one attempt. -/
theorem C6_witness :
    sends_ok [2, 3] ([1, 2, 3, 4, 5] : List Nat).length = true ∧
    (http_request_data [2, 3] [1, 2, 3, 4, 5]).2 = [1, 2, 3, 4, 5] ∧
    iota_service_query 4 s0 [42] [wSendFail] ⟨0, []⟩ =
      some (RC_UTILS_SOCKET_SEND, ⟨0, []⟩, 1) :=
  ⟨by decide,
   C6_amended.1 [2, 3] [1, 2, 3, 4, 5] (http_request_data [2, 3]
     [1, 2, 3, 4, 5]).2 (by decide) (by decide),
   C6_amended.2.2.2.1 4 s0 [] ⟨0, []⟩⟩

set_option maxRecDepth 40000 in
/-- C9 (counterexample): a 1100-character path makes the formatted header
longer than the 1024-byte buffer `sprintf` writes into — the claim calls
for a caller-configuration error, but the attempt proceeds normally and
returns `RC_OK`: the code has no error path for an oversized header (in C
this very input overruns `char header[1024]`). -/
theorem C9_counterexample :
    ¬ header_fits s_long 0 ∧
    cclient_socket_send wOK s_long [] ⟨0, []⟩ = (some RC_OK, bufOK) :=
  ⟨by decide, csend_wOK s_long ⟨0, []⟩⟩

/-- C9 (amended): the header is formatted with unbounded `sprintf` into
the fixed 1024-byte buffer; for every settings value whose header does not
fit, no configuration error is reported — the attempt runs to completion
exactly as if the header fitted (in C, the oversized case is a buffer
overrun, not an error return). -/
theorem C9_amended (s : http_info_t) (hbig : ¬ header_fits s 0) :
    cclient_socket_send wOK s [] ⟨0, []⟩ = (some RC_OK, bufOK) :=
  csend_wOK s ⟨0, []⟩

set_option maxRecDepth 40000 in
/-- C9 (witness): the amended claim at a 1200-character host. -/
theorem C9_witness :
    ¬ header_fits s_long2 0 ∧
    cclient_socket_send wOK s_long2 [] ⟨0, []⟩ = (some RC_OK, bufOK) :=
  ⟨by decide, C9_amended s_long2 (by decide)⟩

end IotaHttp
